import Mathlib

/-!
# record-events eventserver — verification of the authentication core

A shallow embedding, in Lean, of the authentication pipeline of the
`eventserver` crate: the proof-of-work service (`src/crypto/pow.rs`), the
device-certificate service (`src/crypto/certificate.rs`), the ES256 event-JWS
verifier (`src/middleware/crypto.rs`) and the canonical event hash
(`src/services/event.rs`, `src/types/event.rs`).

Modelling conventions:

* Machine integers are `Nat` (or `Int` for chrono timestamps), with explicit
  `% 2 ^ 32` / `% 2 ^ 64` where Rust wraps.  Bytes are `Nat`s kept `< 256` by
  construction.
* Rust `String` is Lean `String`; `str::as_bytes` is the UTF-8 encoding
  `strBytes` defined below, and `String::from_utf8` is the strict decoder
  `utf8Decode`.
* The `Arc<Mutex<HashMap<..>>>` stores are association lists with
  `HashMap`-style insert/remove (at most one live entry per key); each
  service call takes the store and returns the updated store.  Every
  `Utc::now()` reading inside one call is modelled as the single `now`
  argument of that call.
* Randomness (`rand::thread_rng`) is modelled by passing the drawn value
  (certificate id, challenge id, challenge data, server key) as an argument.
* SHA-256 is implemented concretely (FIPS 180-4) over byte lists; the base64
  codecs implement the `base64` crate's `STANDARD` and `URL_SAFE_NO_PAD`
  engines (canonical padding, trailing-bit check on decode).
* Third-party elliptic-curve signature arithmetic (`ring`/`p256` ECDSA used
  by `jsonwebtoken::decode`) is not re-implemented: the event-JWS verifier is
  parameterised by the ECDSA verification predicate, and every theorem about
  it quantifies over that parameter.  The P-256 point validation that the
  repository's own code performs (coordinate length, curve membership) is
  embedded concretely.
-/

/-! ## 32-bit word arithmetic (`u32` as `Nat` mod `2 ^ 32`) -/

/-- `u32` addition: wraps mod `2 ^ 32`. -/
def add32 (a b : Nat) : Nat := (a + b) % 4294967296

/-- `u32` right rotation by `k` (for `k ≤ 32`). -/
def rotr32 (k a : Nat) : Nat := ((a >>> k) ||| (a <<< (32 - k))) % 4294967296

/-- `u32` right shift. -/
def shr32 (k a : Nat) : Nat := a >>> k

/-- `u32` bitwise complement. -/
def not32 (a : Nat) : Nat := Nat.xor a 4294967295

/-! ## SHA-256 (FIPS 180-4), bytes in, 32 bytes out -/

/-- The eight working variables of the SHA-256 compression function. -/
structure Sha256State where
  a : Nat
  b : Nat
  c : Nat
  d : Nat
  e : Nat
  f : Nat
  g : Nat
  h : Nat

/-- SHA-256 initial hash value. -/
def sha256Init : Sha256State :=
  ⟨1779033703, 3144134277, 1013904242, 2773480762,
   1359893119, 2600822924, 528734635, 1541459225⟩

/-- SHA-256 round constants. -/
def sha256K : List Nat :=
  [1116352408, 1899447441, 3049323471, 3921009573, 961987163,
   1508970993, 2453635748, 2870763221, 3624381080, 310598401,
   607225278, 1426881987, 1925078388, 2162078206, 2614888103,
   3248222580, 3835390401, 4022224774, 264347078, 604807628,
   770255983, 1249150122, 1555081692, 1996064986, 2554220882,
   2821834349, 2952996808, 3210313671, 3336571891, 3584528711,
   113926993, 338241895, 666307205, 773529912, 1294757372,
   1396182291, 1695183700, 1986661051, 2177026350, 2456956037,
   2730485921, 2820302411, 3259730800, 3345764771, 3516065817,
   3600352804, 4094571909, 275423344, 430227734, 506948616,
   659060556, 883997877, 958139571, 1322822218, 1537002063,
   1747873779, 1955562222, 2024104815, 2227730452, 2361852424,
   2428436474, 2756734187, 3204031479, 3329325298]

/-- σ₀ message-schedule function. -/
def schedSigma0 (x : Nat) : Nat := Nat.xor (Nat.xor (rotr32 7 x) (rotr32 18 x)) (shr32 3 x)

/-- σ₁ message-schedule function. -/
def schedSigma1 (x : Nat) : Nat := Nat.xor (Nat.xor (rotr32 17 x) (rotr32 19 x)) (shr32 10 x)

/-- Σ₀ compression function. -/
def roundSigma0 (x : Nat) : Nat := Nat.xor (Nat.xor (rotr32 2 x) (rotr32 13 x)) (rotr32 22 x)

/-- Σ₁ compression function. -/
def roundSigma1 (x : Nat) : Nat := Nat.xor (Nat.xor (rotr32 6 x) (rotr32 11 x)) (rotr32 25 x)

/-- Big-endian 32-bit word from (up to) 4 bytes. -/
def beWord : List Nat → Nat
  | [b0, b1, b2, b3] => ((b0 * 256 + b1) * 256 + b2) * 256 + b3
  | _ => 0

/-- Split a list into chunks of `k` elements (`fuel`-bounded recursion). -/
def chunksOf (k : Nat) : Nat → List Nat → List (List Nat)
  | 0, _ => []
  | _, [] => []
  | fuel + 1, l => l.take k :: chunksOf k fuel (l.drop k)

/-- The 16 big-endian message words of one 64-byte block. -/
def blockWords (block : List Nat) : List Nat :=
  (chunksOf 4 block.length block).map beWord

/-- Extend 16 message words to 64 (the result is reversed: head = `W[63]`). -/
def extendWords : Nat → List Nat → List Nat
  | 0, rw => rw
  | n + 1, rw =>
    let w := add32 (add32 (schedSigma1 (rw.getD 1 0)) (rw.getD 6 0))
                   (add32 (schedSigma0 (rw.getD 14 0)) (rw.getD 15 0))
    extendWords n (w :: rw)

/-- The full 64-word message schedule of one block. -/
def messageSchedule (block : List Nat) : List Nat :=
  (extendWords 48 (blockWords block).reverse).reverse

/-- One SHA-256 round. -/
def sha256Round (st : Sha256State) (kw : Nat × Nat) : Sha256State :=
  let t1 := add32 (add32 st.h (roundSigma1 st.e))
                  (add32 (Nat.xor (Nat.land st.e st.f) (Nat.land (not32 st.e) st.g))
                         (add32 kw.1 kw.2))
  let t2 := add32 (roundSigma0 st.a)
                  (Nat.xor (Nat.xor (Nat.land st.a st.b) (Nat.land st.a st.c))
                           (Nat.land st.b st.c))
  ⟨add32 t1 t2, st.a, st.b, st.c, add32 st.d t1, st.e, st.f, st.g⟩

/-- Process one 64-byte block. -/
def sha256Block (st : Sha256State) (block : List Nat) : Sha256State :=
  let w := messageSchedule block
  let r := (sha256K.zip w).foldl sha256Round st
  ⟨add32 st.a r.a, add32 st.b r.b, add32 st.c r.c, add32 st.d r.d,
   add32 st.e r.e, add32 st.f r.f, add32 st.g r.g, add32 st.h r.h⟩

/-- Big-endian bytes of an 8-byte (64-bit) quantity. -/
def be8Bytes (n : Nat) : List Nat :=
  [n / 2 ^ 56 % 256, n / 2 ^ 48 % 256, n / 2 ^ 40 % 256, n / 2 ^ 32 % 256,
   n / 2 ^ 24 % 256, n / 2 ^ 16 % 256, n / 2 ^ 8 % 256, n % 256]

/-- SHA-256 padding: `0x80`, zeros to 56 mod 64, then the bit length. -/
def sha256Pad (msg : List Nat) : List Nat :=
  msg ++ 0x80 :: List.replicate ((119 - msg.length % 64) % 64) 0
      ++ be8Bytes (8 * msg.length)

/-- Big-endian bytes of a 32-bit word. -/
def be4Bytes (w : Nat) : List Nat :=
  [w / 2 ^ 24 % 256, w / 2 ^ 16 % 256, w / 2 ^ 8 % 256, w % 256]

/-- SHA-256 of a byte list: the 32 raw digest bytes. -/
def sha256 (msg : List Nat) : List Nat :=
  let padded := sha256Pad msg
  let final := (chunksOf 64 padded.length padded).foldl sha256Block sha256Init
  be4Bytes final.a ++ be4Bytes final.b ++ be4Bytes final.c ++ be4Bytes final.d ++
  be4Bytes final.e ++ be4Bytes final.f ++ be4Bytes final.g ++ be4Bytes final.h

/-- A SHA-256 digest is 32 bytes. -/
theorem sha256_length (msg : List Nat) : (sha256 msg).length = 32 := by
  simp [sha256, be4Bytes]

/-- The four big-endian bytes of a word are bytes. -/
theorem be4Bytes_lt (w : Nat) : ∀ b ∈ be4Bytes w, b < 256 := by
  intro b hb
  simp only [be4Bytes, List.mem_cons, List.not_mem_nil, or_false] at hb
  rcases hb with rfl | rfl | rfl | rfl <;> exact Nat.mod_lt _ (by norm_num)

/-- Every SHA-256 digest byte is a byte. -/
theorem sha256_lt_256 (msg : List Nat) : ∀ b ∈ sha256 msg, b < 256 := by
  intro b hb
  simp only [sha256, List.mem_append] at hb
  rcases hb with ((((((h | h) | h) | h) | h) | h) | h) | h <;>
    exact be4Bytes_lt _ b h

/-! ## Hexadecimal rendering (Rust `format!("{:x}", digest)`) -/

/-- One lowercase hex digit. -/
def hexDigit (n : Nat) : Char :=
  if n < 10 then Char.ofNat (48 + n) else Char.ofNat (87 + n)

/-- Lowercase hex of a byte list, two digits per byte, as `{:x}` renders a
SHA-256 digest. -/
def hexOfBytes (l : List Nat) : List Char :=
  l.flatMap (fun b => [hexDigit (b / 16), hexDigit (b % 16)])

theorem hexOfBytes_length (l : List Nat) : (hexOfBytes l).length = 2 * l.length := by
  induction l with
  | nil => rfl
  | cons b t ih => simp [hexOfBytes, List.flatMap_cons] at ih ⊢; omega

/-- Lowercase hex digits of bytes are `0`-`9` or `a`-`f`. -/
theorem hexOfBytes_charset (l : List Nat) (hl : ∀ b ∈ l, b < 256) :
    ∀ c ∈ hexOfBytes l, (48 ≤ c.toNat ∧ c.toNat ≤ 57) ∨ (97 ≤ c.toNat ∧ c.toNat ≤ 102) := by
  intro c hc
  simp only [hexOfBytes, List.mem_flatMap, List.mem_cons, List.not_mem_nil, or_false] at hc
  obtain ⟨b, hb, hcs⟩ := hc
  have h256 := hl b hb
  have key : ∀ n, n < 16 → (48 ≤ (hexDigit n).toNat ∧ (hexDigit n).toNat ≤ 57) ∨
      (97 ≤ (hexDigit n).toNat ∧ (hexDigit n).toNat ≤ 102) := by decide
  rcases hcs with rfl | rfl
  · exact key _ (by omega)
  · exact key _ (Nat.mod_lt _ (by norm_num))

/-! ## base64, `STANDARD` engine of the `base64` crate

Standard alphabet, canonical `=` padding on encode; decode requires canonical
padding and rejects set trailing bits (`DecodePaddingMode::RequireCanonical`,
`decode_allow_trailing_bits = false`, the crate's defaults). -/

/-- The standard-alphabet symbol for a sextet. -/
def b64Char (n : Nat) : Char :=
  if n < 26 then Char.ofNat (65 + n)
  else if n < 52 then Char.ofNat (97 + (n - 26))
  else if n < 62 then Char.ofNat (48 + (n - 52))
  else if n = 62 then '+' else '/'

/-- The sextet of a standard-alphabet symbol, `none` outside the alphabet. -/
def b64Val (c : Char) : Option Nat :=
  if 65 ≤ c.toNat ∧ c.toNat ≤ 90 then some (c.toNat - 65)
  else if 97 ≤ c.toNat ∧ c.toNat ≤ 122 then some (c.toNat - 97 + 26)
  else if 48 ≤ c.toNat ∧ c.toNat ≤ 57 then some (c.toNat - 48 + 52)
  else if c = '+' then some 62
  else if c = '/' then some 63
  else none

/-- Standard base64 encoding of a byte list, with padding. -/
def b64EncodeChars : List Nat → List Char
  | [] => []
  | [a] => [b64Char (a / 4), b64Char (a % 4 * 16), '=', '=']
  | [a, b] => [b64Char (a / 4), b64Char (a % 4 * 16 + b / 16), b64Char (b % 16 * 4), '=']
  | a :: b :: c :: rest =>
    b64Char (a / 4) :: b64Char (a % 4 * 16 + b / 16) ::
    b64Char (b % 16 * 4 + c / 64) :: b64Char (c % 64) :: b64EncodeChars rest

/-- `base64::engine::general_purpose::STANDARD.encode`. -/
def base64Encode (l : List Nat) : String := String.mk (b64EncodeChars l)

/-- Standard base64 decoding, canonical form only (char-list worker). -/
def b64DecodeChars : List Char → Option (List Nat)
  | [] => some []
  | c1 :: c2 :: c3 :: c4 :: rest =>
    if c4 = '=' then
      if rest = [] then
        if c3 = '=' then do
          let v1 ← b64Val c1
          let v2 ← b64Val c2
          if v2 % 16 = 0 then some [v1 * 4 + v2 / 16] else none
        else do
          let v1 ← b64Val c1
          let v2 ← b64Val c2
          let v3 ← b64Val c3
          if v3 % 4 = 0 then some [v1 * 4 + v2 / 16, v2 % 16 * 16 + v3 / 4] else none
      else none
    else do
      let v1 ← b64Val c1
      let v2 ← b64Val c2
      let v3 ← b64Val c3
      let v4 ← b64Val c4
      let tail ← b64DecodeChars rest
      some ((v1 * 4 + v2 / 16) :: (v2 % 16 * 16 + v3 / 4) :: (v3 % 4 * 64 + v4) :: tail)
  | _ => none

/-- `base64::engine::general_purpose::STANDARD.decode`. -/
def base64Decode (s : String) : Option (List Nat) := b64DecodeChars s.data

/-! ## base64, `URL_SAFE_NO_PAD` engine (for JWK coordinates) -/

/-- The URL-safe-alphabet symbol for a sextet. -/
def b64uChar (n : Nat) : Char :=
  if n < 26 then Char.ofNat (65 + n)
  else if n < 52 then Char.ofNat (97 + (n - 26))
  else if n < 62 then Char.ofNat (48 + (n - 52))
  else if n = 62 then '-' else '_'

/-- The sextet of a URL-safe-alphabet symbol. -/
def b64uVal (c : Char) : Option Nat :=
  if 65 ≤ c.toNat ∧ c.toNat ≤ 90 then some (c.toNat - 65)
  else if 97 ≤ c.toNat ∧ c.toNat ≤ 122 then some (c.toNat - 97 + 26)
  else if 48 ≤ c.toNat ∧ c.toNat ≤ 57 then some (c.toNat - 48 + 52)
  else if c = '-' then some 62
  else if c = '_' then some 63
  else none

/-- URL-safe base64 without padding, encoding worker. -/
def b64uEncodeChars : List Nat → List Char
  | [] => []
  | [a] => [b64uChar (a / 4), b64uChar (a % 4 * 16)]
  | [a, b] => [b64uChar (a / 4), b64uChar (a % 4 * 16 + b / 16), b64uChar (b % 16 * 4)]
  | a :: b :: c :: rest =>
    b64uChar (a / 4) :: b64uChar (a % 4 * 16 + b / 16) ::
    b64uChar (b % 16 * 4 + c / 64) :: b64uChar (c % 64) :: b64uEncodeChars rest

/-- `base64::engine::general_purpose::URL_SAFE_NO_PAD.encode`. -/
def b64uEncode (l : List Nat) : String := String.mk (b64uEncodeChars l)

/-- URL-safe no-pad decoding worker (trailing bits must be clear). -/
def b64uDecodeChars : List Char → Option (List Nat)
  | [] => some []
  | [_] => none
  | [c1, c2] => do
    let v1 ← b64uVal c1
    let v2 ← b64uVal c2
    if v2 % 16 = 0 then some [v1 * 4 + v2 / 16] else none
  | [c1, c2, c3] => do
    let v1 ← b64uVal c1
    let v2 ← b64uVal c2
    let v3 ← b64uVal c3
    if v3 % 4 = 0 then some [v1 * 4 + v2 / 16, v2 % 16 * 16 + v3 / 4] else none
  | c1 :: c2 :: c3 :: c4 :: rest => do
    let v1 ← b64uVal c1
    let v2 ← b64uVal c2
    let v3 ← b64uVal c3
    let v4 ← b64uVal c4
    let tail ← b64uDecodeChars rest
    some ((v1 * 4 + v2 / 16) :: (v2 % 16 * 16 + v3 / 4) :: (v3 % 4 * 64 + v4) :: tail)

/-- `base64::engine::general_purpose::URL_SAFE_NO_PAD.decode`. -/
def b64uDecode (s : String) : Option (List Nat) := b64uDecodeChars s.data

/-! ### base64 facts -/

/-- Induction following the 3-byte chunking of base64 encoding. -/
def chunk3Ind {α : Type} {P : List α → Prop} (h0 : P []) (h1 : ∀ a, P [a])
    (h2 : ∀ a b, P [a, b])
    (h3 : ∀ a b c rest, P rest → P (a :: b :: c :: rest)) : ∀ l, P l
  | [] => h0
  | [a] => h1 a
  | [a, b] => h2 a b
  | a :: b :: c :: rest => h3 a b c rest (chunk3Ind h0 h1 h2 h3 rest)

/-- Decoding inverts encoding on the standard alphabet. -/
theorem b64Val_b64Char : ∀ n, n < 64 → b64Val (b64Char n) = some n := by decide

/-- Standard-alphabet symbols are ASCII and are none of `=`, `:`, `.`. -/
theorem b64Char_props : ∀ n, n < 64 →
    (b64Char n).toNat < 128 ∧ b64Char n ≠ '=' ∧ b64Char n ≠ ':' ∧ b64Char n ≠ '.' := by
  decide

/-- `STANDARD` decode is a left inverse of `STANDARD` encode on byte lists. -/
theorem b64DecodeChars_encode :
    ∀ l : List Nat, (∀ b ∈ l, b < 256) → b64DecodeChars (b64EncodeChars l) = some l := by
  intro l
  induction l using chunk3Ind with
  | h0 => intro _; rfl
  | h1 a =>
    intro h
    have ha := h a (by simp)
    have h1 : a / 4 < 64 := by omega
    have h2 : a % 4 * 16 < 64 := by omega
    simp only [b64EncodeChars, b64DecodeChars, if_pos rfl, reduceIte,
      b64Val_b64Char _ h1, b64Val_b64Char _ h2, Option.bind_eq_bind,
      Option.some_bind]
    rw [if_pos (by omega : a % 4 * 16 % 16 = 0)]
    rw [(by omega : a / 4 * 4 + a % 4 * 16 / 16 = a)]
  | h2 a b =>
    intro h
    have ha := h a (by simp)
    have hb := h b (by simp)
    have h1 : a / 4 < 64 := by omega
    have h2 : a % 4 * 16 + b / 16 < 64 := by omega
    have h3 : b % 16 * 4 < 64 := by omega
    have hne : b64Char (b % 16 * 4) ≠ '=' := (b64Char_props _ h3).2.1
    simp only [b64EncodeChars, b64DecodeChars, if_pos rfl, if_neg hne, reduceIte,
      b64Val_b64Char _ h1, b64Val_b64Char _ h2, b64Val_b64Char _ h3,
      Option.bind_eq_bind, Option.some_bind]
    rw [if_pos (by omega : b % 16 * 4 % 4 = 0)]
    rw [(by omega : a / 4 * 4 + (a % 4 * 16 + b / 16) / 16 = a)]
    rw [(by omega : (a % 4 * 16 + b / 16) % 16 * 16 + b % 16 * 4 / 4 = b)]
  | h3 a b c rest ih =>
    intro h
    have ha := h a (by simp)
    have hb := h b (by simp)
    have hc := h c (by simp)
    have h1 : a / 4 < 64 := by omega
    have h2 : a % 4 * 16 + b / 16 < 64 := by omega
    have h3 : b % 16 * 4 + c / 64 < 64 := by omega
    have h4 : c % 64 < 64 := by omega
    have hne : b64Char (c % 64) ≠ '=' := (b64Char_props _ h4).2.1
    have htail : b64DecodeChars (b64EncodeChars rest) = some rest :=
      ih (fun x hx => h x (by simp [hx]))
    simp only [b64EncodeChars, b64DecodeChars, if_neg hne,
      b64Val_b64Char _ h1, b64Val_b64Char _ h2, b64Val_b64Char _ h3,
      b64Val_b64Char _ h4, htail, Option.bind_eq_bind, Option.some_bind]
    rw [(by omega : a / 4 * 4 + (a % 4 * 16 + b / 16) / 16 = a)]
    rw [(by omega : (a % 4 * 16 + b / 16) % 16 * 16 + (b % 16 * 4 + c / 64) / 4 = b)]
    rw [(by omega : (b % 16 * 4 + c / 64) % 4 * 64 + c % 64 = c)]

/-- String-level roundtrip for the `STANDARD` engine. -/
theorem base64Decode_encode (l : List Nat) (h : ∀ b ∈ l, b < 256) :
    base64Decode (base64Encode l) = some l := by
  simpa [base64Decode, base64Encode] using b64DecodeChars_encode l h

/-- Every character emitted by `STANDARD` encoding is ASCII and is neither
`:` nor `.`. -/
theorem b64EncodeChars_props (l : List Nat) (hl : ∀ b ∈ l, b < 256) :
    ∀ c ∈ b64EncodeChars l, c.toNat < 128 ∧ c ≠ ':' ∧ c ≠ '.' := by
  induction l using chunk3Ind with
  | h0 => intro c hc; simp [b64EncodeChars] at hc
  | h1 a =>
    intro c hc
    have ha := hl a (by simp)
    simp only [b64EncodeChars, List.mem_cons, List.not_mem_nil, or_false] at hc
    have k1 := b64Char_props (a / 4) (by omega)
    have k2 := b64Char_props (a % 4 * 16) (by omega)
    rcases hc with rfl | rfl | rfl | rfl
    · exact ⟨k1.1, k1.2.2⟩
    · exact ⟨k2.1, k2.2.2⟩
    · exact ⟨by decide, by decide, by decide⟩
    · exact ⟨by decide, by decide, by decide⟩
  | h2 a b =>
    intro c hc
    have ha := hl a (by simp)
    have hb := hl b (by simp)
    simp only [b64EncodeChars, List.mem_cons, List.not_mem_nil, or_false] at hc
    have k1 := b64Char_props (a / 4) (by omega)
    have k2 := b64Char_props (a % 4 * 16 + b / 16) (by omega)
    have k3 := b64Char_props (b % 16 * 4) (by omega)
    rcases hc with rfl | rfl | rfl | rfl
    · exact ⟨k1.1, k1.2.2⟩
    · exact ⟨k2.1, k2.2.2⟩
    · exact ⟨k3.1, k3.2.2⟩
    · exact ⟨by decide, by decide, by decide⟩
  | h3 a b c' rest ih =>
    intro c hc
    have ha := hl a (by simp)
    have hb := hl b (by simp)
    have hc' := hl c' (by simp)
    simp only [b64EncodeChars, List.mem_cons] at hc
    have k1 := b64Char_props (a / 4) (by omega)
    have k2 := b64Char_props (a % 4 * 16 + b / 16) (by omega)
    have k3 := b64Char_props (b % 16 * 4 + c' / 64) (by omega)
    have k4 := b64Char_props (c' % 64) (by omega)
    rcases hc with rfl | rfl | rfl | rfl | hmem
    · exact ⟨k1.1, k1.2.2⟩
    · exact ⟨k2.1, k2.2.2⟩
    · exact ⟨k3.1, k3.2.2⟩
    · exact ⟨k4.1, k4.2.2⟩
    · exact ih (fun x hx => hl x (by simp [hx])) c hmem

/-! ## UTF-8 (`str::as_bytes` / `String::from_utf8`) -/

/-- UTF-8 encoding of one scalar value. -/
def utf8EncodeChar (c : Char) : List Nat :=
  let n := c.toNat
  if n < 0x80 then [n]
  else if n < 0x800 then [0xC0 + n / 64, 0x80 + n % 64]
  else if n < 0x10000 then [0xE0 + n / 4096, 0x80 + n / 64 % 64, 0x80 + n % 64]
  else [0xF0 + n / 0x40000, 0x80 + n / 4096 % 64, 0x80 + n / 64 % 64, 0x80 + n % 64]

/-- `str::as_bytes`: the UTF-8 bytes of a Rust string. -/
def strBytes (s : String) : List Nat := s.data.flatMap utf8EncodeChar

/-- Strict UTF-8 decoding worker (`fuel`-bounded; rejects overlong forms,
surrogates and out-of-range values, as Rust's `String::from_utf8` does). -/
def utf8DecodeGo : Nat → List Nat → Option (List Char)
  | _, [] => some []
  | 0, _ :: _ => none
  | fuel + 1, b :: rest =>
    if b < 0x80 then do
      let tail ← utf8DecodeGo fuel rest
      some (Char.ofNat b :: tail)
    else if b < 0xC2 then none
    else if b < 0xE0 then
      match rest with
      | b1 :: rest' =>
        if 0x80 ≤ b1 ∧ b1 < 0xC0 then do
          let tail ← utf8DecodeGo fuel rest'
          some (Char.ofNat ((b - 0xC0) * 64 + (b1 - 0x80)) :: tail)
        else none
      | _ => none
    else if b < 0xF0 then
      match rest with
      | b1 :: b2 :: rest' =>
        let lo1 := if b = 0xE0 then 0xA0 else 0x80
        let hi1 := if b = 0xED then 0xA0 else 0xC0
        if (lo1 ≤ b1 ∧ b1 < hi1) ∧ (0x80 ≤ b2 ∧ b2 < 0xC0) then do
          let tail ← utf8DecodeGo fuel rest'
          some (Char.ofNat ((b - 0xE0) * 4096 + (b1 - 0x80) * 64 + (b2 - 0x80)) :: tail)
        else none
      | _ => none
    else if b < 0xF5 then
      match rest with
      | b1 :: b2 :: b3 :: rest' =>
        let lo1 := if b = 0xF0 then 0x90 else 0x80
        let hi1 := if b = 0xF4 then 0x90 else 0xC0
        if (lo1 ≤ b1 ∧ b1 < hi1) ∧ (0x80 ≤ b2 ∧ b2 < 0xC0) ∧ (0x80 ≤ b3 ∧ b3 < 0xC0) then do
          let tail ← utf8DecodeGo fuel rest'
          some (Char.ofNat ((b - 0xF0) * 0x40000 + (b1 - 0x80) * 4096 +
            (b2 - 0x80) * 64 + (b3 - 0x80)) :: tail)
        else none
      | _ => none
    else none

/-- `String::from_utf8`: `some` exactly on valid UTF-8. -/
def utf8Decode (l : List Nat) : Option String :=
  (utf8DecodeGo l.length l).map String.mk

/-- `Char.toNat` is a left inverse of `Char.ofNat` below the surrogate range. -/
theorem toNat_ofNat_small (n : Nat) (h : n < 55296) : (Char.ofNat n).toNat = n := by
  have hv : n.isValidChar := Or.inl h
  simp [Char.ofNat, hv, Char.toNat, Char.ofNatAux, UInt32.toNat, BitVec.toNat_ofNatLt]

/-- ASCII characters encode to their single code-point byte. -/
theorem utf8EncodeChar_ascii (c : Char) (h : c.toNat < 128) :
    utf8EncodeChar c = [c.toNat] := by
  simp [utf8EncodeChar, h]

/-- UTF-8 of an ASCII character list is the list of code points. -/
theorem flatMap_utf8_ascii (cs : List Char) (h : ∀ c ∈ cs, c.toNat < 128) :
    cs.flatMap utf8EncodeChar = cs.map Char.toNat := by
  induction cs with
  | nil => rfl
  | cons c t ih =>
    rw [List.flatMap_cons, List.map_cons, utf8EncodeChar_ascii c (h c (by simp)),
      ih (fun x hx => h x (by simp [hx])), List.singleton_append]

/-- `as_bytes` of an ASCII string is the list of code points. -/
theorem strBytes_ascii (s : String) (h : ∀ c ∈ s.data, c.toNat < 128) :
    strBytes s = s.data.map Char.toNat :=
  flatMap_utf8_ascii s.data h

/-- The decoder consumes an ASCII byte and continues. -/
theorem utf8DecodeGo_ascii_cons (fuel : Nat) (b : Nat) (rest : List Nat) (hb : b < 128) :
    utf8DecodeGo (fuel + 1) (b :: rest) =
      (utf8DecodeGo fuel rest).map (fun tail => Char.ofNat b :: tail) := by
  simp only [utf8DecodeGo, if_pos hb, Option.bind_eq_bind]
  cases utf8DecodeGo fuel rest <;> rfl

/-- Decoding inverts encoding on ASCII-only byte lists, with any fuel that
covers the input. -/
theorem utf8DecodeGo_ascii (cs : List Char) (h : ∀ c ∈ cs, c.toNat < 128) :
    ∀ fuel, (cs.map Char.toNat).length ≤ fuel →
      utf8DecodeGo fuel (cs.map Char.toNat) = some cs := by
  induction cs with
  | nil => intro fuel _; cases fuel <;> rfl
  | cons c t ih =>
    intro fuel hfuel
    have hc := h c (by simp)
    cases fuel with
    | zero => simp at hfuel
    | succ fuel =>
      rw [List.map_cons, utf8DecodeGo_ascii_cons fuel _ _ hc,
        ih (fun x hx => h x (by simp [hx])) fuel (by simpa using Nat.lt_succ_iff.mp hfuel)]
      simp [Char.ofNat_toNat]

/-- `String::from_utf8` inverts `as_bytes` on ASCII strings. -/
theorem utf8Decode_strBytes_ascii (s : String) (h : ∀ c ∈ s.data, c.toNat < 128) :
    utf8Decode (strBytes s) = some s := by
  rw [utf8Decode, strBytes_ascii s h, utf8DecodeGo_ascii s.data h _ le_rfl]
  rfl

/-! ## Splitting on a separator (`str::split`) -/

/-- Prepend a character to the first piece of a split result. -/
def consHead (c : Char) : List (List Char) → List (List Char)
  | [] => [[c]]
  | p :: ps => (c :: p) :: ps

/-- `str::split(sep)` at the character level: `n` separators yield `n + 1`
pieces, empty pieces included. -/
def splitOnSep (sep : Char) : List Char → List (List Char)
  | [] => [[]]
  | c :: rest =>
    if c = sep then [] :: splitOnSep sep rest
    else consHead c (splitOnSep sep rest)

/-- `token_str.split(':').collect::<Vec<_>>()`, as Rust strings. -/
def splitColon (s : String) : List String :=
  (splitOnSep ':' s.data).map String.mk

/-- Splitting a separator-free list yields the single piece. -/
theorem splitOnSep_no_sep (sep : Char) (l : List Char) (h : sep ∉ l) :
    splitOnSep sep l = [l] := by
  induction l with
  | nil => rfl
  | cons c t ih =>
    have hc : c ≠ sep := fun e => h (e ▸ List.mem_cons_self c t)
    rw [splitOnSep, if_neg hc, ih (fun hm => h (List.mem_cons_of_mem c hm))]
    rfl

/-- Splitting peels one separator-free piece at the first separator. -/
theorem splitOnSep_append (sep : Char) (a rest : List Char) (ha : sep ∉ a) :
    splitOnSep sep (a ++ sep :: rest) = a :: splitOnSep sep rest := by
  induction a with
  | nil =>
    rw [List.nil_append, splitOnSep, if_pos rfl]
  | cons c t ih =>
    have hc : c ≠ sep := fun e => ha (e ▸ List.mem_cons_self c t)
    have ht : sep ∉ t := fun hm => ha (List.mem_cons_of_mem c hm)
    rw [List.cons_append, splitOnSep, if_neg hc, ih ht]
    rfl

/-! ## Decimal rendering (Rust `Display` for `i64`/`u32`/`u64`) -/

/-- Decimal digits of a natural number (`fuel`-bounded worker). -/
def natDigits : Nat → Nat → List Char
  | 0, _ => []
  | fuel + 1, n =>
    if n < 10 then [Char.ofNat (48 + n)]
    else natDigits fuel (n / 10) ++ [Char.ofNat (48 + n % 10)]

/-- Decimal rendering of a `Nat` (Rust `u32`/`u64` `Display`). -/
def natDecimal (n : Nat) : String := String.mk (natDigits (n + 1) n)

/-- Decimal rendering of an `Int` (Rust `i64` `Display`). -/
def intDecimal (i : Int) : String :=
  if i < 0 then String.mk ('-' :: natDigits (i.natAbs + 1) i.natAbs)
  else natDecimal i.toNat

/-- Every digit character is an ASCII digit. -/
theorem natDigits_charset (fuel n : Nat) :
    ∀ c ∈ natDigits fuel n, 48 ≤ c.toNat ∧ c.toNat ≤ 57 := by
  induction fuel generalizing n with
  | zero => intro c hc; simp [natDigits] at hc
  | succ fuel ih =>
    intro c hc
    rw [natDigits] at hc
    by_cases hn : n < 10
    · rw [if_pos hn] at hc
      simp only [List.mem_cons, List.not_mem_nil, or_false] at hc
      subst hc
      rw [toNat_ofNat_small _ (by omega)]
      omega
    · rw [if_neg hn] at hc
      rcases List.mem_append.mp hc with hm | hm
      · exact ih _ c hm
      · simp only [List.mem_cons, List.not_mem_nil, or_false] at hm
        subst hm
        have : n % 10 < 10 := Nat.mod_lt _ (by norm_num)
        rw [toNat_ofNat_small _ (by omega)]
        omega

/-- Decimal renderings are ASCII and contain no colon. -/
theorem natDecimal_charset (n : Nat) :
    ∀ c ∈ (natDecimal n).data, c.toNat < 128 ∧ c ≠ ':' := by
  intro c hc
  have h := natDigits_charset (n + 1) n c hc
  refine ⟨by omega, fun e => ?_⟩
  subst e
  exact absurd h (by decide)

/-- Integer decimal renderings are ASCII and contain no colon. -/
theorem intDecimal_charset (i : Int) :
    ∀ c ∈ (intDecimal i).data, c.toNat < 128 ∧ c ≠ ':' := by
  intro c hc
  unfold intDecimal at hc
  by_cases hi : i < 0
  · rw [if_pos hi] at hc
    simp only [List.mem_cons] at hc
    rcases hc with rfl | hm
    · exact ⟨by decide, by decide⟩
    · have h := natDigits_charset _ _ c hm
      refine ⟨by omega, fun e => ?_⟩
      subst e
      exact absurd h (by decide)
  · rw [if_neg hi] at hc
    exact natDecimal_charset _ c hc

/-! ## Error type

`EventServerError::Validation(msg)` carries a formatted message string; each
distinct message produced by the embedded code paths is modelled as one
constructor (dynamic `format!` arguments become constructor arguments), so
that distinct messages are distinct values, as they are as strings. -/

/-- `jsonwebtoken::errors::Error` kinds reachable through `decode`. -/
inductive JwtError where
  /-- token/header parse failure (malformed compact serialization) -/
  | malformedToken
  /-- header `alg` not in `Validation::algorithms` -/
  | invalidAlgorithm
  /-- ES256 signature verification failed -/
  | invalidSignature
  /-- claims JSON does not deserialize into `EventJwtClaims` (no `payload`) -/
  | missingPayloadClaim
  /-- a claim in `required_spec_claims` (here `exp`) is absent -/
  | missingRequiredClaim
  /-- `exp` is in the past beyond the 60 s leeway -/
  | expiredSignature
  /-- audience validation failed -/
  | invalidAudience
deriving DecidableEq, Repr

/-- The `format!` messages wrapped in `EventServerError::Validation` by the
embedded code paths. -/
inductive ValidationMsg where
  /-- "Invalid token format: {e}" (base64 decode failure) -/
  | invalidTokenFormat
  /-- "Invalid token encoding: {e}" (UTF-8 failure) -/
  | invalidTokenEncoding
  /-- "Invalid token structure" -/
  | invalidTokenStructure
  /-- "Certificate not found" -/
  | certificateNotFound
  /-- "Certificate has expired" -/
  | certificateExpired
  /-- "Invalid certificate signature" -/
  | invalidCertificateSignature
  /-- "Challenge not found: {challenge_id}" -/
  | challengeNotFound (challengeId : String)
  /-- "Challenge has expired" -/
  | challengeExpired
  /-- "Invalid hash in solution" -/
  | invalidHashInSolution
  /-- "Hash does not meet difficulty requirement of {d} leading zeros" -/
  | difficultyNotMet (difficulty : Nat)
  /-- "Invalid base64 hash: {e}" -/
  | invalidBase64Hash
  /-- "Invalid JWK format: {e}" -/
  | invalidJwkFormat
  /-- "Invalid key type: expected 'EC', got '{kty}'" -/
  | invalidKeyType (got : String)
  /-- "Invalid curve: expected 'P-256', got '{crv}'" -/
  | invalidCurve (got : String)
  /-- "Invalid x coordinate: {e}" -/
  | invalidXCoordinate
  /-- "Invalid y coordinate: {e}" -/
  | invalidYCoordinate
  /-- "Invalid x coordinate length: expected 32 bytes, got {n}" -/
  | invalidXLength (got : Nat)
  /-- "Invalid y coordinate length: expected 32 bytes, got {n}" -/
  | invalidYLength (got : Nat)
  /-- "Invalid EC point: {e}" -/
  | invalidEcPoint
  /-- "Invalid P-256 public key point" -/
  | invalidP256Point
  /-- "JWT verification failed: {e}" -/
  | jwtVerificationFailed (e : JwtError)
deriving DecidableEq, Repr

/-- `EventServerError`, restricted to the variants the embedded paths build. -/
inductive EventServerError where
  /-- `EventServerError::Validation` -/
  | validation (msg : ValidationMsg)
deriving DecidableEq, Repr

/-! ## Association-list stores (`Arc<Mutex<HashMap<String, _>>>`) -/

/-- `HashMap::get` on an association list (at most one live binding per key). -/
def alookup {α : Type} (k : String) : List (String × α) → Option α
  | [] => none
  | (k', v) :: rest => if k' = k then some v else alookup k rest

/-- `HashMap::remove`: drop every binding of `k`. -/
def eraseKey {α : Type} (k : String) : List (String × α) → List (String × α)
  | [] => []
  | (k', v) :: rest => if k' = k then eraseKey k rest else (k', v) :: eraseKey k rest

/-- `HashMap::insert`: bind `k`, replacing any previous binding. -/
def insertKey {α : Type} (k : String) (v : α) (m : List (String × α)) :
    List (String × α) :=
  (k, v) :: eraseKey k m

/-! ## Certificate service (`src/crypto/certificate.rs`)

Timestamps are `Int` seconds (`DateTime::timestamp` granularity); the
certificate lifetime is `Int` seconds (`Duration::hours(h)` = `3600 * h`).
The random `certificate_id` drawn by `generate_certificate_id` is passed as
an argument. -/

/-- `DeviceCertificate`. -/
structure DeviceCertificate where
  certificate_id : String
  relay_id : String
  public_key : String
  issued_at : Int
  expires_at : Int
  signature : String
deriving DecidableEq, Repr

/-- `CertificateRequest`. -/
structure CertificateRequest where
  relay_id : String
  public_key : String
deriving DecidableEq, Repr

/-- `CertificateValidation`. -/
structure CertificateValidation where
  relay_id : String
  public_key : String
  expires_at : Int
deriving DecidableEq, Repr

/-- `CertificateResponse`. -/
structure CertificateResponse where
  certificate : DeviceCertificate
  token : String
deriving DecidableEq, Repr

/-- The certificate store contents. -/
abbrev CertStore : Type := List (String × DeviceCertificate)

/-- `cleanup_expired_certificates`: retain entries with `expires_at > now`. -/
def cleanup_expired_certificates (now : Int) : CertStore → CertStore
  | [] => []
  | (k, c) :: rest =>
    if now < c.expires_at then (k, c) :: cleanup_expired_certificates now rest
    else cleanup_expired_certificates now rest

/-- `sign_certificate_data`: `base64(SHA-256(data || server_private_key))`. -/
def sign_certificate_data (serverKey : List Nat) (data : String) : String :=
  base64Encode (sha256 (strBytes data ++ serverKey))

/-- The `format!("{}:{}:{}:{}", ..)` string signed into a certificate. -/
def certDataString (certificateId relayId publicKey : String) (expTs : Int) : String :=
  certificateId ++ ":" ++ relayId ++ ":" ++ publicKey ++ ":" ++ intDecimal expTs

/-- `generate_certificate_token`:
`base64(certificate_id ":" expires_at.timestamp() ":" signature[..16])`
(the signature slice is byte-level, as in Rust). -/
def generate_certificate_token (cert : DeviceCertificate) : String :=
  base64Encode (strBytes (cert.certificate_id ++ ":" ++ intDecimal cert.expires_at ++ ":")
    ++ (strBytes cert.signature).take 16)

/-- `extract_certificate_id_from_token`: base64-decode, UTF-8 decode, split on
`:` into exactly three parts, return the first. -/
def extract_certificate_id_from_token (token : String) :
    Except EventServerError String :=
  match base64Decode token with
  | none => .error (.validation .invalidTokenFormat)
  | some decoded =>
    match utf8Decode decoded with
    | none => .error (.validation .invalidTokenEncoding)
    | some tokenStr =>
      let parts := splitColon tokenStr
      if parts.length = 3 then .ok (parts.headD "")
      else .error (.validation .invalidTokenStructure)

/-- `issue_certificate` (cannot fail): sweep, build, sign, mint, store. -/
def issue_certificate (serverKey : List Nat) (lifetime : Int) (st : CertStore)
    (request : CertificateRequest) (certificateId : String) (now : Int) :
    CertificateResponse × CertStore :=
  let st' := cleanup_expired_certificates now st
  let expiresAt := now + lifetime
  let certData := certDataString certificateId request.relay_id request.public_key expiresAt
  let signature := sign_certificate_data serverKey certData
  let certificate : DeviceCertificate :=
    ⟨certificateId, request.relay_id, request.public_key, now, expiresAt, signature⟩
  let token := generate_certificate_token certificate
  (⟨certificate, token⟩, insertKey certificateId certificate st')

/-- `validate_certificate`: sweep, extract id, look up, expiry check (removing
on expiry), recompute and compare the keyed digest, return the stored triple. -/
def validate_certificate (serverKey : List Nat) (st : CertStore) (now : Int)
    (token : String) : Except EventServerError CertificateValidation × CertStore :=
  let st₁ := cleanup_expired_certificates now st
  match extract_certificate_id_from_token token with
  | .error e => (.error e, st₁)
  | .ok certificateId =>
    match alookup certificateId st₁ with
    | none => (.error (.validation .certificateNotFound), st₁)
    | some certificate =>
      if now > certificate.expires_at then
        (.error (.validation .certificateExpired), eraseKey certificateId st₁)
      else
        let certData := certDataString certificate.certificate_id certificate.relay_id
          certificate.public_key certificate.expires_at
        if sign_certificate_data serverKey certData ≠ certificate.signature then
          (.error (.validation .invalidCertificateSignature), st₁)
        else
          (.ok ⟨certificate.relay_id, certificate.public_key, certificate.expires_at⟩, st₁)

/-! ### Shared facts about tokens -/

/-- UTF-8 encodes code points into bytes. -/
theorem utf8EncodeChar_lt_256 (c : Char) : ∀ b ∈ utf8EncodeChar c, b < 256 := by
  intro b hb
  have hv : c.toNat < 1114112 := by
    rcases c.valid with h | h
    · exact Nat.lt_trans h (by norm_num)
    · exact h.2
  unfold utf8EncodeChar at hb
  by_cases h1 : c.toNat < 128
  · simp only [if_pos h1, List.mem_cons, List.not_mem_nil, or_false] at hb
    omega
  · rw [if_neg h1] at hb
    by_cases h2 : c.toNat < 2048
    · simp only [if_pos h2, List.mem_cons, List.not_mem_nil, or_false] at hb
      rcases hb with rfl | rfl <;> omega
    · rw [if_neg h2] at hb
      by_cases h3 : c.toNat < 65536
      · simp only [if_pos h3, List.mem_cons, List.not_mem_nil, or_false] at hb
        rcases hb with rfl | rfl | rfl <;> omega
      · simp only [if_neg h3, List.mem_cons, List.not_mem_nil, or_false] at hb
        rcases hb with rfl | rfl | rfl | rfl <;> omega

/-- `as_bytes` yields bytes. -/
theorem strBytes_lt_256 (s : String) : ∀ b ∈ strBytes s, b < 256 := by
  intro b hb
  simp only [strBytes, List.mem_flatMap] at hb
  obtain ⟨c, _, hc⟩ := hb
  exact utf8EncodeChar_lt_256 c b hc

/-- `as_bytes` distributes over string concatenation. -/
theorem strBytes_append (s t : String) : strBytes (s ++ t) = strBytes s ++ strBytes t := by
  simp [strBytes, String.data_append]

/-- Extracting from a minted token recovers the certificate id, provided the
id is ASCII and colon-free (its generator emits base64) and the signature is
ASCII and colon-free (it is base64 output). -/
theorem extract_generate_eq (cert : DeviceCertificate)
    (hid : ∀ c ∈ cert.certificate_id.data, c.toNat < 128 ∧ c ≠ ':')
    (hsig : ∀ c ∈ cert.signature.data, c.toNat < 128 ∧ c ≠ ':') :
    extract_certificate_id_from_token (generate_certificate_token cert) =
      .ok cert.certificate_id := by
  set pref : String := String.mk (cert.signature.data.take 16) with hpref
  have hsig_ascii : ∀ c ∈ cert.signature.data, c.toNat < 128 := fun c hc => (hsig c hc).1
  have hpref_mem : ∀ c ∈ pref.data, c ∈ cert.signature.data := by
    intro c hc
    rw [hpref] at hc
    exact List.mem_of_mem_take hc
  -- the byte-level slice is the encoding of the 16-char prefix
  have hslice : (strBytes cert.signature).take 16 = strBytes pref := by
    rw [strBytes_ascii cert.signature hsig_ascii,
      strBytes_ascii pref (fun c hc => (hsig c (hpref_mem c hc)).1), hpref]
    exact (List.map_take Char.toNat cert.signature.data 16).symm
  set full : String :=
    cert.certificate_id ++ ":" ++ intDecimal cert.expires_at ++ ":" ++ pref with hfull
  have htoken : generate_certificate_token cert = base64Encode (strBytes full) := by
    rw [generate_certificate_token, hslice, hfull]
    simp [strBytes_append, List.append_assoc]
  have hdata : full.data = cert.certificate_id.data ++
      ':' :: ((intDecimal cert.expires_at).data ++ ':' :: pref.data) := by
    rw [hfull]
    simp [String.data_append]
  have hfull_ascii : ∀ c ∈ full.data, c.toNat < 128 := by
    intro c hc
    rw [hdata] at hc
    rcases List.mem_append.mp hc with hc | hc
    · exact (hid c hc).1
    · rcases List.mem_cons.mp hc with rfl | hc
      · decide
      · rcases List.mem_append.mp hc with hc | hc
        · exact (intDecimal_charset _ c hc).1
        · rcases List.mem_cons.mp hc with rfl | hc
          · decide
          · exact (hsig c (hpref_mem c hc)).1
  rw [extract_certificate_id_from_token, htoken,
    base64Decode_encode _ (strBytes_lt_256 full)]
  simp only [utf8Decode_strBytes_ascii full hfull_ascii]
  have hsplit : splitOnSep ':' full.data =
      [cert.certificate_id.data, (intDecimal cert.expires_at).data, pref.data] := by
    rw [hdata,
      splitOnSep_append ':' _ _ (fun hm => ((hid _ hm).2 rfl).elim),
      splitOnSep_append ':' _ _ (fun hm => ((intDecimal_charset _ _ hm).2 rfl).elim),
      splitOnSep_no_sep ':' _ (fun hm => ((hsig _ (hpref_mem _ hm)).2 rfl).elim)]
  simp only [splitColon, hsplit, List.map_cons, List.map_nil, List.length_cons,
    List.length_nil]
  rfl

/-! ### Store lemmas -/

/-- A key outside a map looks up to nothing. -/
theorem alookup_not_mem_none {α : Type} (k : String) (m : List (String × α))
    (h : k ∉ m.map Prod.fst) : alookup k m = none := by
  induction m with
  | nil => rfl
  | cons kv rest ih =>
    simp only [List.map_cons, List.mem_cons, not_or] at h
    rw [show kv = (kv.1, kv.2) from rfl, alookup, if_neg (fun e => h.1 e.symm)]
    exact ih h.2

/-- Sweeping keeps a subset of the keys. -/
theorem keys_cleanup_subset (now : Int) (m : CertStore) :
    ∀ k ∈ (cleanup_expired_certificates now m).map Prod.fst, k ∈ m.map Prod.fst := by
  induction m with
  | nil => intro k hk; exact hk
  | cons kv rest ih =>
    intro k hk
    rw [show kv = (kv.1, kv.2) from rfl, cleanup_expired_certificates] at hk
    by_cases hc : now < kv.2.expires_at
    · rw [if_pos hc] at hk
      rcases List.mem_cons.mp hk with rfl | hk
      · simp
      · simp only [List.map_cons, List.mem_cons]
        exact Or.inr (ih k hk)
    · rw [if_neg hc] at hk
      simp only [List.map_cons, List.mem_cons]
      exact Or.inr (ih k hk)

/-- After the sweep, an entry observed expired is gone (unique keys). -/
theorem alookup_cleanup_none (now : Int) (m : CertStore) (k : String)
    (cert : DeviceCertificate) (hnd : (m.map Prod.fst).Nodup)
    (hl : alookup k m = some cert) (hexp : ¬ now < cert.expires_at) :
    alookup k (cleanup_expired_certificates now m) = none := by
  induction m with
  | nil => simp [alookup] at hl
  | cons kv rest ih =>
    rw [show kv = (kv.1, kv.2) from rfl] at hl hnd ⊢
    rw [cleanup_expired_certificates]
    by_cases hk : kv.1 = k
    · subst hk
      rw [alookup, if_pos rfl] at hl
      injection hl with hl
      subst hl
      rw [if_neg hexp]
      have hmem : kv.1 ∉ rest.map Prod.fst := by
        simp only [List.map_cons, List.nodup_cons] at hnd
        exact hnd.1
      exact alookup_not_mem_none _ _
        (fun hm => hmem (keys_cleanup_subset now rest _ hm))
    · rw [alookup, if_neg hk] at hl
      have hnd' : (rest.map Prod.fst).Nodup := by
        simp only [List.map_cons, List.nodup_cons] at hnd
        exact hnd.2
      by_cases hc : now < kv.2.expires_at
      · rw [if_pos hc, alookup, if_neg hk]
        exact ih hnd' hl
      · rw [if_neg hc]
        exact ih hnd' hl

/-! ### Claims C1, C2, C4, C5 -/

/-- Modelled from the spec: a JWS in compact serialization is three
base64url segments joined by `.` — so any JWS compact serialization splits
on `.` into exactly three parts.  (Only this shape fact about JWS is needed;
the `jsonwebtoken` crate's HS256 encoder always emits this shape.) -/
def isCompactJws (s : String) : Bool := (splitOnSep '.' s.data).length == 3

/-- A concrete certificate (signature field 20 ASCII chars, as a stand-in of
the 44-char base64 signature the service would store). -/
def c1Cert : DeviceCertificate :=
  ⟨"certid0001", "relay1", "pk1", 0, 3600, "ABCDEFGHIJKLMNOPQRST"⟩

/-- C1 counterexample: the token minted by `generate_certificate_token` is
not a JWS at all — it has no `.` separators, hence is not an HS256 JWS with
any claims; the claim fails already at its first conjunct. -/
theorem c1_counterexample : isCompactJws (generate_certificate_token c1Cert) = false := by
  decide

/-- C1 (amended): the bearer token is the standard-base64 encoding of
`certificate_id ":" expires_at_unix_seconds ":" signature[..16]` — not a JWS —
and token validation only base64-decodes it, checks UTF-8 and the
three-colon-part structure, and extracts `certificate_id`; no signature and
no expiry are verified from the token itself.  (Hypotheses: the certificate
id and signature are ASCII without `:`, which holds for the base64 strings
the service generates.) -/
theorem c1_token_format (cert : DeviceCertificate)
    (hid : ∀ c ∈ cert.certificate_id.data, c.toNat < 128 ∧ c ≠ ':')
    (hsig : ∀ c ∈ cert.signature.data, c.toNat < 128 ∧ c ≠ ':') :
    generate_certificate_token cert =
      base64Encode (strBytes (cert.certificate_id ++ ":" ++ intDecimal cert.expires_at ++ ":")
        ++ (strBytes cert.signature).take 16) ∧
    extract_certificate_id_from_token (generate_certificate_token cert) =
      .ok cert.certificate_id :=
  ⟨rfl, extract_generate_eq cert hid hsig⟩

/-- C1 witness: the amended statement at the concrete certificate. -/
theorem c1_token_format_witness :
    extract_certificate_id_from_token (generate_certificate_token c1Cert) =
      .ok "certid0001" :=
  (c1_token_format c1Cert (by decide) (by decide)).2

/-- C2: validation depends on the token only through the first
colon-separated part of its decoded form: two tokens whose decoded bodies are
three-part strings agreeing on the first part validate identically against
any store state — the embedded expiry and signature-prefix parts are never
inspected. -/
theorem c2_validation_ignores_tail (serverKey : List Nat) (st : CertStore) (now : Int)
    (t₁ t₂ : String) (b₁ b₂ : List Nat) (s₁ s₂ : String)
    (hd₁ : base64Decode t₁ = some b₁) (hu₁ : utf8Decode b₁ = some s₁)
    (hd₂ : base64Decode t₂ = some b₂) (hu₂ : utf8Decode b₂ = some s₂)
    (hl₁ : (splitColon s₁).length = 3) (hl₂ : (splitColon s₂).length = 3)
    (hhead : (splitColon s₁).headD "" = (splitColon s₂).headD "") :
    validate_certificate serverKey st now t₁ = validate_certificate serverKey st now t₂ := by
  have e₁ : extract_certificate_id_from_token t₁ = .ok ((splitColon s₁).headD "") := by
    rw [extract_certificate_id_from_token, hd₁]
    simp only [hu₁]
    rw [if_pos hl₁]
  have e₂ : extract_certificate_id_from_token t₂ = .ok ((splitColon s₂).headD "") := by
    rw [extract_certificate_id_from_token, hd₂]
    simp only [hu₂]
    rw [if_pos hl₂]
  rw [validate_certificate, validate_certificate, e₁, e₂, hhead]

/-- C2 witness: two concrete tokens sharing the id part but with different
expiry and signature-prefix parts validate identically. -/
theorem c2_validation_ignores_tail_witness :
    validate_certificate [] [] 0 (base64Encode (strBytes "A:1:B"))
      = validate_certificate [] [] 0 (base64Encode (strBytes "A:2222:CD")) :=
  c2_validation_ignores_tail [] [] 0 _ _ (strBytes "A:1:B") (strBytes "A:2222:CD")
    "A:1:B" "A:2222:CD"
    (by decide) (by decide) (by decide) (by decide) (by decide) (by decide) (by decide)

/-- C4: a token issued by `issue_certificate` validates, before its expiry,
to exactly the relay id and public key supplied at issue (read back from the
stored record).  The certificate id drawn by the generator is ASCII without
`:` (it is base64). -/
theorem c4_issue_then_validate (serverKey : List Nat) (lifetime : Int) (st : CertStore)
    (request : CertificateRequest) (certificateId : String) (now now' : Int)
    (hid : ∀ c ∈ certificateId.data, c.toNat < 128 ∧ c ≠ ':')
    (hfresh : now' < now + lifetime) :
    (validate_certificate serverKey
        (issue_certificate serverKey lifetime st request certificateId now).2 now'
        (issue_certificate serverKey lifetime st request certificateId now).1.token).1 =
      .ok ⟨request.relay_id, request.public_key, now + lifetime⟩ := by
  set cert : DeviceCertificate :=
    ⟨certificateId, request.relay_id, request.public_key, now, now + lifetime,
      sign_certificate_data serverKey
        (certDataString certificateId request.relay_id request.public_key
          (now + lifetime))⟩ with hcert
  have hsig_props : ∀ c ∈ cert.signature.data, c.toNat < 128 ∧ c ≠ ':' := by
    intro c hc
    have hp := b64EncodeChars_props _
      (sha256_lt_256 (strBytes (certDataString certificateId request.relay_id
        request.public_key (now + lifetime)) ++ serverKey)) c hc
    exact ⟨hp.1, hp.2.1⟩
  have hextract : extract_certificate_id_from_token (generate_certificate_token cert) =
      .ok certificateId :=
    extract_generate_eq cert hid hsig_props
  show (validate_certificate serverKey
      (insertKey certificateId cert (cleanup_expired_certificates now st)) now'
      (generate_certificate_token cert)).1 = _
  rw [validate_certificate, hextract]
  have hclean : cleanup_expired_certificates now'
      (insertKey certificateId cert (cleanup_expired_certificates now st)) =
      (certificateId, cert) :: cleanup_expired_certificates now'
        (eraseKey certificateId (cleanup_expired_certificates now st)) := by
    rw [insertKey, cleanup_expired_certificates,
      if_pos (show now' < cert.expires_at from hfresh)]
  have hfind : alookup certificateId ((certificateId, cert) ::
      cleanup_expired_certificates now'
        (eraseKey certificateId (cleanup_expired_certificates now st))) = some cert := by
    simp [alookup]
  rw [hclean]
  simp only [hfind]
  rw [if_neg (show ¬ now' > cert.expires_at from not_lt.mpr (le_of_lt hfresh)),
    if_neg (show ¬ sign_certificate_data serverKey
      (certDataString cert.certificate_id cert.relay_id cert.public_key cert.expires_at)
        ≠ cert.signature from fun h => h rfl)]

/-- C4 witness: a concrete issue/validate roundtrip returns the supplied
relay id and public key. -/
theorem c4_issue_then_validate_witness :
    (validate_certificate [7] (issue_certificate [7] 3600 [] ⟨"relayW", "pkW"⟩ "IdW" 100).2
        101 (issue_certificate [7] 3600 [] ⟨"relayW", "pkW"⟩ "IdW" 100).1.token).1 =
      .ok ⟨"relayW", "pkW", 100 + 3600⟩ :=
  c4_issue_then_validate [7] 3600 [] ⟨"relayW", "pkW"⟩ "IdW" 100 101
    (by decide) (by decide)

deriving instance DecidableEq for Except

/-- A concrete certificate that expires at time 0. -/
def c5Cert : DeviceCertificate := ⟨"A", "relay5", "pk5", 0, 0, "0123456789abcdef"⟩

/-- A store holding only the expired certificate. -/
def c5Store : CertStore := [("A", c5Cert)]

/-- A well-formed token naming `c5Cert`. -/
def c5Token : String := base64Encode (strBytes "A:0:0123456789abcdef")

/-- C5 counterexample: validating a token whose certificate is expired at the
current time fails with "Certificate not found", not with the "expired"
error the claim names — the head-of-call sweep removes the entry before the
lookup, so the expired branch never fires for an entry expired at call time. -/
theorem c5_counterexample :
    (validate_certificate [] c5Store 0 c5Token).1 =
      .error (.validation .certificateNotFound) ∧
    (validate_certificate [] c5Store 0 c5Token).1 ≠
      .error (.validation .certificateExpired) := by
  constructor
  · decide
  · decide

/-- C5 (amended): for every token whose extracted certificate id is bound in
the store to a certificate with `expires_at ≤ now`, `validate_certificate`
fails with the "Certificate not found" error (the initial sweep removes every
expired entry before lookup) and the store entry is absent afterwards. -/
theorem c5_expired_not_found (serverKey : List Nat) (st : CertStore) (now : Int)
    (token : String) (cid : String) (cert : DeviceCertificate)
    (hnd : (st.map Prod.fst).Nodup)
    (hex : extract_certificate_id_from_token token = .ok cid)
    (hl : alookup cid st = some cert)
    (hexp : cert.expires_at ≤ now) :
    (validate_certificate serverKey st now token).1 =
      .error (.validation .certificateNotFound) ∧
    alookup cid (validate_certificate serverKey st now token).2 = none := by
  have hnone : alookup cid (cleanup_expired_certificates now st) = none :=
    alookup_cleanup_none now st cid cert hnd hl (not_lt.mpr hexp)
  rw [validate_certificate, hex]
  simp only [hnone]
  exact ⟨trivial, trivial⟩

/-- C5 witness: the amended statement at the concrete expired store. -/
theorem c5_expired_not_found_witness :
    (validate_certificate [] c5Store 0 c5Token).1 =
      .error (.validation .certificateNotFound) ∧
    alookup "A" (validate_certificate [] c5Store 0 c5Token).2 = none :=
  c5_expired_not_found [] c5Store 0 c5Token "A" c5Cert
    (by decide) (by decide) (by decide) (by decide)

/-! ## Proof-of-work service (`src/crypto/pow.rs`) -/

/-- `PowChallenge`. -/
structure PowChallenge where
  challenge_id : String
  challenge_data : String
  difficulty : Nat
  expires_at : Int
  created_at : Int
deriving DecidableEq, Repr

/-- `PowSolution`. -/
structure PowSolution where
  challenge_id : String
  nonce : Nat
  hash : String
deriving DecidableEq, Repr

/-- The challenge store contents. -/
abbrev PowStore : Type := List (String × PowChallenge)

/-- `u64::to_le_bytes`: eight little-endian bytes. -/
def u64leBytes (n : Nat) : List Nat :=
  [n % 256, n / 2 ^ 8 % 256, n / 2 ^ 16 % 256, n / 2 ^ 24 % 256,
   n / 2 ^ 32 % 256, n / 2 ^ 40 % 256, n / 2 ^ 48 % 256, n / 2 ^ 56 % 256]

/-- `compute_hash`: `base64(SHA-256(challenge_data.as_bytes() || nonce_le))`. -/
def compute_hash (challengeData : String) (nonce : Nat) : String :=
  base64Encode (sha256 (strBytes challengeData ++ u64leBytes nonce))

/-- The leading-zero-hex-nibble count of `meets_difficulty`'s loop: a zero
byte adds 2 and continues, a byte below 16 adds 1 and stops, any other byte
stops. -/
def leadingHexZeros : List Nat → Nat
  | [] => 0
  | b :: rest => if b = 0 then 2 + leadingHexZeros rest else if b < 16 then 1 else 0

/-- `meets_difficulty`: decode the base64 hash and compare the leading-zero
count on the raw bytes against the difficulty. -/
def meets_difficulty (hash : String) (difficulty : Nat) :
    Except EventServerError Bool :=
  match base64Decode hash with
  | none => .error (.validation .invalidBase64Hash)
  | some hashBytes => .ok (decide (difficulty ≤ leadingHexZeros hashBytes))

/-- `verify_solution`: look up, expiry check (removing on expiry), recompute
and compare the hash, check difficulty, consume the challenge on success. -/
def verify_solution (st : PowStore) (now : Int) (solution : PowSolution) :
    Except EventServerError Unit × PowStore :=
  match alookup solution.challenge_id st with
  | none => (.error (.validation (.challengeNotFound solution.challenge_id)), st)
  | some challenge =>
    if now > challenge.expires_at then
      (.error (.validation .challengeExpired), eraseKey solution.challenge_id st)
    else
      let computedHash := compute_hash challenge.challenge_data solution.nonce
      if computedHash ≠ solution.hash then
        (.error (.validation .invalidHashInSolution), st)
      else
        match meets_difficulty computedHash challenge.difficulty with
        | .error e => (.error e, st)
        | .ok false =>
          (.error (.validation (.difficultyNotMet challenge.difficulty)), st)
        | .ok true => (.ok (), eraseKey solution.challenge_id st)

/-- Erasing a key leaves nothing to look up under it. -/
theorem alookup_eraseKey_self {α : Type} (k : String) (m : List (String × α)) :
    alookup k (eraseKey k m) = none := by
  induction m with
  | nil => rfl
  | cons kv rest ih =>
    rw [show kv = (kv.1, kv.2) from rfl, eraseKey]
    by_cases hk : kv.1 = k
    · rw [if_pos hk]
      exact ih
    · rw [if_neg hk, alookup, if_neg hk]
      exact ih

/-! ### Claims C6, C7, C8 -/

/-- C6: when `verify_solution` succeeds, the challenge is consumed: it is
absent from the resulting store, and every later submission naming the same
challenge id fails with the "Challenge not found" error. -/
theorem c6_challenge_single_use (st : PowStore) (now : Int) (sol : PowSolution)
    (s' : PowStore) (h : verify_solution st now sol = (.ok (), s')) :
    alookup sol.challenge_id s' = none ∧
    ∀ (now' : Int) (sol' : PowSolution), sol'.challenge_id = sol.challenge_id →
      (verify_solution s' now' sol').1 =
        .error (.validation (.challengeNotFound sol'.challenge_id)) := by
  rw [verify_solution] at h
  split at h
  · simp [Prod.ext_iff] at h
  · split at h
    · simp [Prod.ext_iff] at h
    · dsimp only at h
      split at h
      · simp [Prod.ext_iff] at h
      · split at h
        · simp [Prod.ext_iff] at h
        · simp [Prod.ext_iff] at h
        · obtain ⟨-, rfl⟩ := Prod.mk.injEq .. ▸ h
          refine ⟨alookup_eraseKey_self _ _, fun now' sol' hcid => ?_⟩
          have hnone : alookup sol'.challenge_id (eraseKey sol.challenge_id st) = none := by
            rw [hcid]
            exact alookup_eraseKey_self _ _
          rw [verify_solution, hnone]

/-- The concrete challenge consumed in the C6 witness. -/
def c6Challenge : PowChallenge := ⟨"C", "D", 0, 10, 0⟩

/-- The store holding the C6 witness challenge. -/
def c6Store : PowStore := [("C", c6Challenge)]

/-- A correct solution of the C6 witness challenge at difficulty 0. -/
def c6Solution : PowSolution := ⟨"C", 0, compute_hash "D" 0⟩

/-- C6 witness: the concrete challenge is consumed and replay fails. -/
theorem c6_challenge_single_use_witness :
    alookup "C" ([] : PowStore) = none ∧
    (verify_solution ([] : PowStore) 3 ⟨"C", 5, "other"⟩).1 =
      .error (.validation (.challengeNotFound "C")) :=
  ⟨(c6_challenge_single_use c6Store 0 c6Solution [] (by decide)).1,
   (c6_challenge_single_use c6Store 0 c6Solution [] (by decide)).2 3 ⟨"C", 5, "other"⟩ rfl⟩

/-- C7: for a stored, unexpired challenge, `verify_solution` recomputes
`base64(SHA-256(challenge_data.as_bytes() || nonce as 8 little-endian
bytes))` — which is exactly `compute_hash` — and fails with the "Invalid hash
in solution" error precisely when that encoding differs from the submitted
`solution.hash`. -/
theorem c7_hash_check (st : PowStore) (now : Int) (sol : PowSolution)
    (ch : PowChallenge) (hfound : alookup sol.challenge_id st = some ch)
    (hexp : ¬ now > ch.expires_at) :
    compute_hash ch.challenge_data sol.nonce =
      base64Encode (sha256 (strBytes ch.challenge_data ++ u64leBytes sol.nonce)) ∧
    ((verify_solution st now sol).1 =
        .error (.validation .invalidHashInSolution) ↔
      base64Encode (sha256 (strBytes ch.challenge_data ++ u64leBytes sol.nonce))
        ≠ sol.hash) := by
  refine ⟨rfl, ?_⟩
  rw [verify_solution, hfound]
  simp only [if_neg hexp]
  by_cases heq : compute_hash ch.challenge_data sol.nonce = sol.hash
  · rw [if_neg (fun hne => hne heq)]
    have hmd : meets_difficulty (compute_hash ch.challenge_data sol.nonce) ch.difficulty =
        .ok (decide (ch.difficulty ≤
          leadingHexZeros (sha256 (strBytes ch.challenge_data ++ u64leBytes sol.nonce)))) := by
      rw [compute_hash, meets_difficulty, base64Decode_encode _ (sha256_lt_256 _)]
    rw [hmd]
    constructor
    · intro habs
      cases hdec : decide (ch.difficulty ≤
          leadingHexZeros (sha256 (strBytes ch.challenge_data ++ u64leBytes sol.nonce))) <;>
        rw [hdec] at habs <;> simp at habs
    · intro hne
      exact absurd heq hne
  · rw [if_pos heq]
    simp only [true_iff]
    intro habs
    exact heq (habs ▸ rfl)

/-- A concrete unexpired difficulty-0 challenge for the C7 witness. -/
def c7Challenge : PowChallenge := ⟨"K", "data7", 0, 100, 0⟩

/-- The store holding the C7 witness challenge. -/
def c7Store : PowStore := [("K", c7Challenge)]

/-- C7 witness: a wrong submitted hash is rejected as "Invalid hash in
solution" exactly because the recomputed encoding differs. -/
theorem c7_hash_check_witness :
    (verify_solution c7Store 0 ⟨"K", 4, "nope"⟩).1 =
        .error (.validation .invalidHashInSolution) ↔
      base64Encode (sha256 (strBytes "data7" ++ u64leBytes 4)) ≠ "nope" :=
  (c7_hash_check c7Store 0 ⟨"K", 4, "nope"⟩ c7Challenge (by decide) (by decide)).2

/-- C8: for every hash that base64-decodes, the difficulty check passes at
difficulty `d` exactly when the leading-zero-hex-nibble count of the raw
bytes — 2 per zero byte, then 1 for a final byte below 16 — reaches `d`; in
particular difficulty 0 passes for every decodable hash. -/
theorem c8_meets_difficulty (h : String) (hashBytes : List Nat) (d : Nat)
    (hdec : base64Decode h = some hashBytes) :
    meets_difficulty h d = .ok (decide (d ≤ leadingHexZeros hashBytes)) ∧
    meets_difficulty h 0 = .ok true := by
  rw [meets_difficulty, hdec, meets_difficulty, hdec]
  exact ⟨rfl, by simp⟩

/-- C8 witness: the concrete hash `base64([0, 0, 31, 5])` (binary
`00 00 1F 05`) has 5 leading zero nibbles. -/
theorem c8_meets_difficulty_witness :
    meets_difficulty (base64Encode [0, 0, 31, 5]) 5 =
      .ok (decide (5 ≤ leadingHexZeros [0, 0, 31, 5])) ∧
    meets_difficulty (base64Encode [0, 0, 31, 5]) 0 = .ok true :=
  c8_meets_difficulty (base64Encode [0, 0, 31, 5]) [0, 0, 31, 5] 5 (by decide)

/-! ## Event data model (`src/types/event.rs`)

`Uuid` and `DateTime<Utc>` fields are modelled as the strings they serialize
to (a hyphenated UUID, an RFC 3339 timestamp): the embedded code never
inspects their structure, only serializes them.  `f64` annotation values are
modelled by their serde/ryu decimal rendering, floating point itself not
being shallow-embeddable. -/

/-- `FieldValue` (untagged: serializes as the bare JSON scalar). -/
inductive FieldValue where
  | str (s : String)
  | num (rendering : String)
  | bool (b : Bool)
  | null
deriving DecidableEq, Repr

/-- `MediaType`. -/
inductive MediaType where
  | imageJpeg
  | imagePng
  | imageGif
  | videoMp4
deriving DecidableEq, Repr

/-- `MediaType::as_str`. -/
def MediaType.asStr : MediaType → String
  | .imageJpeg => "image/jpeg"
  | .imagePng => "image/png"
  | .imageGif => "image/gif"
  | .videoMp4 => "video/mp4"

/-- `EventAnnotation` (camelCase on the wire). -/
structure EventAnnotation where
  labelId : String
  value : FieldValue
  timestamp : String
deriving DecidableEq, Repr

/-- `EventMedia`. -/
structure EventMedia where
  mediaType : MediaType
  data : String
  name : String
  size : Nat
  lastModified : Nat
deriving DecidableEq, Repr

/-- `EventSource`. -/
inductive EventSource where
  | web
  | mobile
deriving DecidableEq, Repr

/-- `EventMetadata`. -/
structure EventMetadata where
  createdAt : String
  createdBy : Option String
  source : EventSource
deriving DecidableEq, Repr

/-- `EventPackage`. -/
structure EventPackage where
  id : String
  version : String
  annotations : List EventAnnotation
  media : Option EventMedia
  metadata : EventMetadata
deriving DecidableEq, Repr

/-! ## JSON values, as `serde_json::Value`

Numbers carry their decimal rendering verbatim (`raw`); maps are ordered
field lists.  `serde_json` without the `preserve_order` feature stores
objects in a `BTreeMap`, so objects built by the embedded code list their
fields in ascending key order. -/

/-- A JSON value. -/
inductive Json where
  | null
  | bool (b : Bool)
  | str (s : String)
  | num (raw : String)
  | arr (elems : List Json)
  | obj (fields : List (String × Json))

/-- One character of a JSON string, escaped as `serde_json` emits it. -/
def jsonEscapeChar (c : Char) : List Char :=
  if c = '"' then ['\\', '"']
  else if c = '\\' then ['\\', '\\']
  else if c.toNat = 8 then ['\\', 'b']
  else if c.toNat = 9 then ['\\', 't']
  else if c.toNat = 10 then ['\\', 'n']
  else if c.toNat = 12 then ['\\', 'f']
  else if c.toNat = 13 then ['\\', 'r']
  else if c.toNat < 32 then
    ['\\', 'u', '0', '0', hexDigit (c.toNat / 16), hexDigit (c.toNat % 16)]
  else [c]

/-- A JSON string literal with quotes, escaped as `serde_json` emits it. -/
def jsonQuote (s : String) : String :=
  "\"" ++ String.mk (s.data.flatMap jsonEscapeChar) ++ "\""

mutual

/-- `serde_json::to_string`: the default compact serialization. -/
def serJson : Json → String
  | .null => "null"
  | .bool true => "true"
  | .bool false => "false"
  | .str s => jsonQuote s
  | .num raw => raw
  | .arr xs => "[" ++ serArr xs ++ "]"
  | .obj fs => "\x7b" ++ serFields fs ++ "\x7d"

/-- Comma-joined serialization of array elements. -/
def serArr : List Json → String
  | [] => ""
  | [x] => serJson x
  | x :: xs => serJson x ++ "," ++ serArr xs

/-- Comma-joined serialization of object members. -/
def serFields : List (String × Json) → String
  | [] => ""
  | [(k, v)] => jsonQuote k ++ ":" ++ serJson v
  | (k, v) :: fs => jsonQuote k ++ ":" ++ serJson v ++ "," ++ serFields fs

end

/-! ## JSON parsing, as `serde_json::from_str`

A `fuel`-bounded recursive-descent parser for the full JSON grammar
(whitespace, nested values, string escapes with surrogate pairs, numbers kept
as raw text).  `from_str` requires the whole input to be one value followed
only by whitespace. -/

/-- Skip JSON whitespace. -/
def skipWs : List Char → List Char
  | [] => []
  | c :: rest =>
    if c = ' ' ∨ c = '\t' ∨ c = '\n' ∨ c = '\r' then skipWs rest else c :: rest

/-- The value of a hex digit. -/
def hexVal (c : Char) : Option Nat :=
  if 48 ≤ c.toNat ∧ c.toNat ≤ 57 then some (c.toNat - 48)
  else if 97 ≤ c.toNat ∧ c.toNat ≤ 102 then some (c.toNat - 97 + 10)
  else if 65 ≤ c.toNat ∧ c.toNat ≤ 70 then some (c.toNat - 65 + 10)
  else none

/-- Parse the body of a JSON string after the opening quote, handling
escapes and UTF-16 surrogate pairs; returns the string and the rest. -/
def parseStringBody : Nat → List Char → Option (List Char × List Char)
  | 0, _ => none
  | _, [] => none
  | fuel + 1, c :: rest =>
    if c = '"' then some ([], rest)
    else if c = '\\' then
      match rest with
      | 'u' :: h1 :: h2 :: h3 :: h4 :: rest' => do
        let v1 ← hexVal h1
        let v2 ← hexVal h2
        let v3 ← hexVal h3
        let v4 ← hexVal h4
        let n := ((v1 * 16 + v2) * 16 + v3) * 16 + v4
        if 0xD800 ≤ n ∧ n < 0xDC00 then
          match rest' with
          | '\\' :: 'u' :: g1 :: g2 :: g3 :: g4 :: rest'' => do
            let w1 ← hexVal g1
            let w2 ← hexVal g2
            let w3 ← hexVal g3
            let w4 ← hexVal g4
            let m := ((w1 * 16 + w2) * 16 + w3) * 16 + w4
            if 0xDC00 ≤ m ∧ m < 0xE000 then do
              let (tail, r) ← parseStringBody fuel rest''
              some (Char.ofNat (0x10000 + (n - 0xD800) * 1024 + (m - 0xDC00)) :: tail, r)
            else none
          | _ => none
        else if 0xDC00 ≤ n ∧ n < 0xE000 then none
        else do
          let (tail, r) ← parseStringBody fuel rest'
          some (Char.ofNat n :: tail, r)
      | e :: rest' => do
        let ec ←
          if e = '"' then some '"'
          else if e = '\\' then some '\\'
          else if e = '/' then some '/'
          else if e = 'b' then some (Char.ofNat 8)
          else if e = 'f' then some (Char.ofNat 12)
          else if e = 'n' then some '\n'
          else if e = 'r' then some (Char.ofNat 13)
          else if e = 't' then some '\t'
          else none
        let (tail, r) ← parseStringBody fuel rest'
        some (ec :: tail, r)
      | [] => none
    else if c.toNat < 32 then none
    else do
      let (tail, r) ← parseStringBody fuel rest
      some (c :: tail, r)

/-- Take a maximal run of ASCII digits. -/
def takeDigits : List Char → List Char × List Char
  | [] => ([], [])
  | c :: rest =>
    if 48 ≤ c.toNat ∧ c.toNat ≤ 57 then
      let (ds, r) := takeDigits rest
      (c :: ds, r)
    else ([], c :: rest)

/-- Parse a JSON number per the JSON grammar, keeping its raw text. -/
def parseNumber (l : List Char) : Option (List Char × List Char) := do
  let (neg, l₁) := match l with
    | '-' :: r => (['-'], r)
    | _ => (([] : List Char), l)
  let (intPart, l₂) ← match l₁ with
    | '0' :: r => some (['0'], r)
    | c :: r =>
      if 49 ≤ c.toNat ∧ c.toNat ≤ 57 then
        let (ds, r') := takeDigits r
        some (c :: ds, r')
      else none
    | [] => none
  let (fracPart, l₃) ← match l₂ with
    | '.' :: r =>
      match takeDigits r with
      | ([], _) => none
      | (ds, r') => some ('.' :: ds, r')
    | _ => some (([] : List Char), l₂)
  let (expPart, l₄) ← match l₃ with
    | c :: r =>
      if c = 'e' ∨ c = 'E' then
        let (sign, r₁) := match r with
          | '+' :: r' => (['+'], r')
          | '-' :: r' => (['-'], r')
          | _ => (([] : List Char), r)
        match takeDigits r₁ with
        | ([], _) => none
        | (ds, r') => some (c :: (sign ++ ds), r')
      else some (([] : List Char), l₃)
    | [] => some (([] : List Char), l₃)
  some (neg ++ intPart ++ fracPart ++ expPart, l₄)

mutual

/-- Parse one JSON value (after leading whitespace). -/
def parseValue : Nat → List Char → Option (Json × List Char)
  | 0, _ => none
  | fuel + 1, l =>
    match skipWs l with
    | [] => none
    | c :: rest =>
      if c = '"' then
        (parseStringBody fuel rest).map (fun p => (Json.str (String.mk p.1), p.2))
      else if c = '\x7b' then
        match skipWs rest with
        | '\x7d' :: r => some (Json.obj [], r)
        | _ => (parseMembers fuel rest).map (fun p => (Json.obj p.1, p.2))
      else if c = '[' then
        match skipWs rest with
        | ']' :: r => some (Json.arr [], r)
        | _ => (parseElems fuel rest).map (fun p => (Json.arr p.1, p.2))
      else if c = 't' then
        match rest with
        | 'r' :: 'u' :: 'e' :: r => some (Json.bool true, r)
        | _ => none
      else if c = 'f' then
        match rest with
        | 'a' :: 'l' :: 's' :: 'e' :: r => some (Json.bool false, r)
        | _ => none
      else if c = 'n' then
        match rest with
        | 'u' :: 'l' :: 'l' :: r => some (Json.null, r)
        | _ => none
      else
        (parseNumber (c :: rest)).map (fun p => (Json.num (String.mk p.1), p.2))

/-- Parse object members up to the closing brace. -/
def parseMembers : Nat → List Char → Option (List (String × Json) × List Char)
  | 0, _ => none
  | fuel + 1, l =>
    match skipWs l with
    | '"' :: rest => do
      let (k, r₁) ← parseStringBody fuel rest
      match skipWs r₁ with
      | ':' :: r₂ => do
        let (v, r₃) ← parseValue fuel r₂
        match skipWs r₃ with
        | ',' :: r₄ =>
          (parseMembers fuel r₄).map (fun p => ((String.mk k, v) :: p.1, p.2))
        | '\x7d' :: r₄ => some ([(String.mk k, v)], r₄)
        | _ => none
      | _ => none
    | _ => none

/-- Parse array elements up to the closing bracket. -/
def parseElems : Nat → List Char → Option (List Json × List Char)
  | 0, _ => none
  | fuel + 1, l => do
    let (v, r₁) ← parseValue fuel l
    match skipWs r₁ with
    | ',' :: r₂ => (parseElems fuel r₂).map (fun p => (v :: p.1, p.2))
    | ']' :: r₂ => some ([v], r₂)
    | _ => none

end

/-- `serde_json::from_str` to a `Value`: one value, then only whitespace. -/
def jsonParse (s : String) : Option Json :=
  match parseValue (s.data.length + 2) s.data with
  | some (v, rest) => if skipWs rest = [] then some v else none
  | none => none

/-! ## JWS verifier (`src/middleware/crypto.rs`) -/

/-- `JwkKey`: the P-256 JWK structure. -/
structure JwkKey where
  kty : String
  crv : String
  x : String
  y : String
  d : Option String
deriving DecidableEq, Repr

/-- serde struct deserialization of `JwkKey` from parsed JSON: required
string fields `kty`, `crv`, `x`, `y`; optional `d` (`null` reads as `none`);
unknown fields ignored; duplicate known fields rejected. -/
def jwkFields : List (String × Json) → Option String → Option String →
    Option String → Option String → Option (Option String) → Option JwkKey
  | [], ktySlot, crvSlot, xSlot, ySlot, dSlot =>
    match ktySlot, crvSlot, xSlot, ySlot with
    | some kty, some crv, some x, some y => some ⟨kty, crv, x, y, dSlot.getD none⟩
    | _, _, _, _ => none
  | (k, v) :: rest, ktySlot, crvSlot, xSlot, ySlot, dSlot =>
    if k = "kty" then
      match ktySlot, v with
      | none, .str s => jwkFields rest (some s) crvSlot xSlot ySlot dSlot
      | _, _ => none
    else if k = "crv" then
      match crvSlot, v with
      | none, .str s => jwkFields rest ktySlot (some s) xSlot ySlot dSlot
      | _, _ => none
    else if k = "x" then
      match xSlot, v with
      | none, .str s => jwkFields rest ktySlot crvSlot (some s) ySlot dSlot
      | _, _ => none
    else if k = "y" then
      match ySlot, v with
      | none, .str s => jwkFields rest ktySlot crvSlot xSlot (some s) dSlot
      | _, _ => none
    else if k = "d" then
      match dSlot, v with
      | none, .str s => jwkFields rest ktySlot crvSlot xSlot ySlot (some (some s))
      | none, .null => jwkFields rest ktySlot crvSlot xSlot ySlot (some none)
      | _, _ => none
    else jwkFields rest ktySlot crvSlot xSlot ySlot dSlot

/-- A parsed JSON value as a `JwkKey`, when it is a conforming object. -/
def jwkFromJson : Json → Option JwkKey
  | .obj fields => jwkFields fields none none none none none
  | _ => none

/-- `serde_json::from_str::<JwkKey>(device_public_key)`: the key material is
parsed as JWK JSON directly. -/
def parseJwk (s : String) : Option JwkKey := (jsonParse s).bind jwkFromJson

/-- The NIST P-256 field prime. -/
def p256P : Nat :=
  0xffffffff00000001000000000000000000000000ffffffffffffffffffffffff

/-- The NIST P-256 curve constant `b`. -/
def p256B : Nat :=
  0x5ac635d8aa3a93e7b3ebbd55769886bc651d06b0cc53b0f63bce3c3e27d2604b

/-- The check performed by `p256::PublicKey::from_encoded_point` on an
uncompressed point: field-range coordinates satisfying
`y² = x³ − 3x + b (mod p)`. -/
def isOnCurveP256 (x y : Nat) : Bool :=
  decide (x < p256P) && decide (y < p256P) &&
  decide (y * y % p256P = (x * x * x + (p256P - 3) * x + p256B) % p256P)

/-- Big-endian integer of a byte list (SEC1 coordinate order). -/
def beNat (l : List Nat) : Nat := l.foldl (fun acc b => acc * 256 + b) 0

/-- The ES256 JWT presented in a `SignedEventPackage`, in parsed form: the
header's `alg`, the `payload` claim (if the claims JSON has one), and the
registered claims the configured `Validation` reads.  Compact-serialization
parse failures are outside this model. -/
structure Jwt where
  alg : String
  payload : Option EventPackage
  exp : Option Nat
  aud : Option String
deriving DecidableEq, Repr

/-- The third-party ECDSA-P256 signature check (`ring` via `jsonwebtoken`),
abstract: given the affine public-key point and the token, does the
signature verify?  Theorems quantify over this parameter. -/
def EcdsaVerifier : Type := Nat × Nat → Jwt → Bool

/-- `jsonwebtoken::decode::<EventJwtClaims>` under the validation the
middleware configures — `Validation::new(Algorithm::ES256)` with
`validate_exp = true` and no expected audiences (`aud = None`): algorithm
pinned to ES256; signature first; claims must deserialize (the `payload`
field is required); `exp` is required and checked against `now` with the
default 60-second leeway; per the crate's v9 audience rule, a token that
carries an `aud` claim when no expected audience is configured is rejected,
and a token without `aud` is not subject to any audience check. -/
def jwtDecode (ecdsaVerify : EcdsaVerifier) (key : Nat × Nat) (now : Nat)
    (jwt : Jwt) : Except JwtError EventPackage :=
  if jwt.alg ≠ "ES256" then .error .invalidAlgorithm
  else if ¬ ecdsaVerify key jwt then .error .invalidSignature
  else
    match jwt.payload with
    | none => .error .missingPayloadClaim
    | some ep =>
      match jwt.exp with
      | none => .error .missingRequiredClaim
      | some e =>
        if e < now - 60 then .error .expiredSignature
        else
          match jwt.aud with
          | some _ => .error .invalidAudience
          | none => .ok ep

/-- `verify_jwt_event_data`: parse the key material directly as JWK JSON,
require `kty == "EC"` and `crv == "P-256"`, base64url-no-pad decode `x` and
`y` into exactly 32 bytes each, rebuild and validate the P-256 point, then
decode the ES256 JWT with the configured validation. -/
def verify_jwt_event_data (ecdsaVerify : EcdsaVerifier) (now : Nat) (jwt : Jwt)
    (devicePublicKey : String) : Except EventServerError EventPackage :=
  match parseJwk devicePublicKey with
  | none => .error (.validation .invalidJwkFormat)
  | some jwk =>
    if jwk.kty ≠ "EC" then .error (.validation (.invalidKeyType jwk.kty))
    else if jwk.crv ≠ "P-256" then .error (.validation (.invalidCurve jwk.crv))
    else
      match b64uDecode jwk.x with
      | none => .error (.validation .invalidXCoordinate)
      | some xBytes =>
        match b64uDecode jwk.y with
        | none => .error (.validation .invalidYCoordinate)
        | some yBytes =>
          if xBytes.length ≠ 32 then .error (.validation (.invalidXLength xBytes.length))
          else if yBytes.length ≠ 32 then .error (.validation (.invalidYLength yBytes.length))
          else
            let xN := beNat xBytes
            let yN := beNat yBytes
            if ¬ isOnCurveP256 xN yN then .error (.validation .invalidP256Point)
            else
              match jwtDecode ecdsaVerify (xN, yN) now jwt with
              | .error e => .error (.validation (.jwtVerificationFailed e))
              | .ok ep => .ok ep

/-! ### Claims C3, C9 -/

/-- C3 (amended): `verify_jwt_event_data` never requires `aud` to equal
`"event_server"` — it configures no expected audience.  A JWT carrying no
`aud` claim at all is accepted whenever the key material passes the JWK
pipeline, the point lies on P-256, the ES256 signature verifies, and `exp`
is not in the past (60 s leeway). -/
theorem c3_aud_not_required (verifier : EcdsaVerifier) (now : Nat) (jwt : Jwt)
    (material : String) (jwk : JwkKey) (xB yB : List Nat) (ep : EventPackage) (e : Nat)
    (hparse : parseJwk material = some jwk) (hkty : jwk.kty = "EC")
    (hcrv : jwk.crv = "P-256")
    (hx : b64uDecode jwk.x = some xB) (hxl : xB.length = 32)
    (hy : b64uDecode jwk.y = some yB) (hyl : yB.length = 32)
    (hcurve : isOnCurveP256 (beNat xB) (beNat yB) = true)
    (halg : jwt.alg = "ES256") (hsig : verifier (beNat xB, beNat yB) jwt = true)
    (hpay : jwt.payload = some ep) (hexp : jwt.exp = some e) (hfut : now ≤ e)
    (haud : jwt.aud = none) :
    verify_jwt_event_data verifier now jwt material = .ok ep := by
  rw [verify_jwt_event_data, hparse]
  simp only [hkty, hcrv, hx, hy, hxl, hyl, hcurve, jwtDecode, halg, hsig, hpay, hexp,
    haud, ne_eq, not_true_eq_false, not_false_eq_true, Bool.not_true, Bool.false_eq_true,
    reduceIte]
  rw [if_neg (show ¬ e < now - 60 by omega)]

/-- The x-coordinate of the P-256 base point. -/
def p256Gx : Nat := 0x6b17d1f2e12c4247f8bce6e563a440f277037d812deb33a0f4a13945d898c296

/-- The y-coordinate of the P-256 base point. -/
def p256Gy : Nat := 0x4fe342e2fe1a7f9b8ee7eb4a7c0f9e162bce33576b315ececbb6406837bf51f5

/-- `k` big-endian bytes of a natural number. -/
def natBeBytes : Nat → Nat → List Nat
  | 0, _ => []
  | k + 1, n => natBeBytes k (n / 256) ++ [n % 256]

/-- Concrete device key material: the P-256 base point as a plain JWK JSON
string (not base64-wrapped). -/
def cGoodJwkStr : String :=
  "\x7b\"kty\":\"EC\",\"crv\":\"P-256\",\"x\":\"" ++ b64uEncode (natBeBytes 32 p256Gx) ++
  "\",\"y\":\"" ++ b64uEncode (natBeBytes 32 p256Gy) ++ "\"\x7d"

/-- The JWK that `cGoodJwkStr` parses to. -/
def cJwkKey : JwkKey :=
  ⟨"EC", "P-256", b64uEncode (natBeBytes 32 p256Gx), b64uEncode (natBeBytes 32 p256Gy), none⟩

/-- An ECDSA oracle that accepts; valid ES256 signatures exist for any key
and message, so this instantiates "the signature is valid". -/
def trueVerifier : EcdsaVerifier := fun _ _ => true

/-- A concrete event package. -/
def cEp : EventPackage := ⟨"id0", "1.0", [], none, ⟨"t0", none, .web⟩⟩

/-- A concrete ES256 JWT with future `exp` and no `aud` claim at all. -/
def cJwtNoAud : Jwt := ⟨"ES256", some cEp, some 9999999999, none⟩

set_option maxRecDepth 100000

/-- C3 counterexample: a JWT whose `aud` claim is absent — hence not equal to
`"event_server"` — is accepted by `verify_jwt_event_data` when the ES256
signature verifies and `exp` is in the future, where the claim says every
such JWT is rejected. -/
theorem c3_counterexample :
    cJwtNoAud.aud = none ∧
    verify_jwt_event_data trueVerifier 1000 cJwtNoAud cGoodJwkStr = .ok cEp := by
  constructor
  · rfl
  · decide

/-- C3 witness: the amended acceptance statement at the concrete inputs. -/
theorem c3_aud_not_required_witness :
    verify_jwt_event_data trueVerifier 1000 cJwtNoAud cGoodJwkStr = .ok cEp :=
  c3_aud_not_required trueVerifier 1000 cJwtNoAud cGoodJwkStr cJwkKey
    (natBeBytes 32 p256Gx) (natBeBytes 32 p256Gy) cEp 9999999999
    (by decide) (by decide) (by decide) (by decide) (by decide) (by decide) (by decide)
    (by decide) (by decide) (by decide) (by decide) (by decide) (by decide) (by decide)

/-- C9 (amended): `verify_jwt_event_data` succeeds only if the key material
parses *directly* (no base64-standard unwrap) as a JWK JSON object with
`kty == "EC"`, `crv == "P-256"`, and base64url-no-pad `x` and `y` decoding
to exactly 32 bytes each; violating any of these conditions makes it fail. -/
theorem c9_success_conditions (verifier : EcdsaVerifier) (now : Nat) (jwt : Jwt)
    (material : String) (ep : EventPackage)
    (h : verify_jwt_event_data verifier now jwt material = .ok ep) :
    ∃ jwk xB yB, parseJwk material = some jwk ∧ jwk.kty = "EC" ∧ jwk.crv = "P-256" ∧
      b64uDecode jwk.x = some xB ∧ xB.length = 32 ∧
      b64uDecode jwk.y = some yB ∧ yB.length = 32 := by
  rw [verify_jwt_event_data] at h
  split at h
  · exact absurd h (by simp)
  · rename_i jwk hparse
    split at h
    · exact absurd h (by simp)
    · rename_i hkty
      split at h
      · exact absurd h (by simp)
      · rename_i hcrv
        split at h
        · exact absurd h (by simp)
        · rename_i xB hx
          split at h
          · exact absurd h (by simp)
          · rename_i yB hy
            split at h
            · exact absurd h (by simp)
            · rename_i hxl
              split at h
              · exact absurd h (by simp)
              · rename_i hyl
                exact ⟨jwk, xB, yB, hparse, not_ne_iff.mp hkty, not_ne_iff.mp hcrv,
                  hx, not_ne_iff.mp hxl, hy, not_ne_iff.mp hyl⟩

/-- C9 counterexample: `verify_jwt_event_data` succeeds on key material that
does not base64-standard-decode at all (it is the raw JWK JSON, whose first
byte `0x7B` is outside the base64 alphabet), refuting the claim's condition
that success requires the material to be a base64-standard wrapping. -/
theorem c9_counterexample :
    verify_jwt_event_data trueVerifier 1000 cJwtNoAud cGoodJwkStr = .ok cEp ∧
    base64Decode cGoodJwkStr = none := by
  constructor
  · decide
  · decide

/-- C9 witness: the success conditions extracted at the concrete inputs. -/
theorem c9_success_conditions_witness :
    ∃ jwk xB yB, parseJwk cGoodJwkStr = some jwk ∧ jwk.kty = "EC" ∧
      jwk.crv = "P-256" ∧ b64uDecode jwk.x = some xB ∧ xB.length = 32 ∧
      b64uDecode jwk.y = some yB ∧ yB.length = 32 :=
  c9_success_conditions trueVerifier 1000 cJwtNoAud cGoodJwkStr cEp (by decide)

/-! ## Canonical event hash (`src/services/event.rs`, `src/types/event.rs`) -/

/-- An untagged `FieldValue` serializes as the bare JSON scalar. -/
def fieldValueJson : FieldValue → Json
  | .str s => .str s
  | .num r => .num r
  | .bool b => .bool b
  | .null => .null

/-- One serialized annotation (`BTreeMap` key order:
`labelId`, `timestamp`, `value`). -/
def annotationJson (a : EventAnnotation) : Json :=
  .obj [("labelId", .str a.labelId), ("timestamp", .str a.timestamp),
        ("value", fieldValueJson a.value)]

/-- The `{type, size, name}` object hashed for media (key order:
`name`, `size`, `type`). -/
def mediaHashJson (m : EventMedia) : Json :=
  .obj [("name", .str m.name), ("size", .num (natDecimal m.size)),
        ("type", .str m.mediaType.asStr)]

/-- `EventPackage::create_hash_input`: the `json!` object
`{id, annotations, media: {type, size, name} | null, createdAt}`, held in
`serde_json`'s default `BTreeMap` key order. -/
def create_hash_input (ep : EventPackage) : Json :=
  .obj [("annotations", .arr (ep.annotations.map annotationJson)),
        ("createdAt", .str ep.metadata.createdAt),
        ("id", .str ep.id),
        ("media", match ep.media with
          | none => .null
          | some m => mediaHashJson m)]

/-- `generate_event_hash`: `format!("{:x}", Sha256(to_string(hash_input)))`. -/
def generate_event_hash (ep : EventPackage) : String :=
  String.mk (hexOfBytes (sha256 (strBytes (serJson (create_hash_input ep)))))

/-- C10: the canonical event hash is the lowercase-hex SHA-256 of the compact
JSON serialization of the object `{annotations, createdAt, id, media}` built
from the package (`serde_json` emits the `json!` literal's keys in sorted
order); it is deterministic, 64 characters long, and every character is a
lowercase hex digit. -/
theorem c10_event_hash (ep : EventPackage) :
    generate_event_hash ep =
      String.mk (hexOfBytes (sha256 (strBytes (serJson (Json.obj
        [("annotations", .arr (ep.annotations.map annotationJson)),
         ("createdAt", .str ep.metadata.createdAt),
         ("id", .str ep.id),
         ("media", match ep.media with
           | none => .null
           | some m => mediaHashJson m)]))))) ∧
    (∀ ep', ep = ep' → generate_event_hash ep = generate_event_hash ep') ∧
    (generate_event_hash ep).length = 64 ∧
    ∀ c ∈ (generate_event_hash ep).data,
      (48 ≤ c.toNat ∧ c.toNat ≤ 57) ∨ (97 ≤ c.toNat ∧ c.toNat ≤ 102) := by
  refine ⟨rfl, fun ep' he => he ▸ rfl, ?_, ?_⟩
  · show (hexOfBytes (sha256 (strBytes (serJson (create_hash_input ep))))).length = 64
    rw [hexOfBytes_length, sha256_length]
  · intro c hc
    exact hexOfBytes_charset _ (sha256_lt_256 _) c hc

/-- C10 witness: determinism and the 64-character format at a concrete
package. -/
theorem c10_event_hash_witness :
    generate_event_hash cEp = generate_event_hash cEp ∧
    (generate_event_hash cEp).length = 64 :=
  ⟨(c10_event_hash cEp).2.1 cEp rfl, (c10_event_hash cEp).2.2.1⟩
